import Mathlib

/-!
Verification of the darkcord client specification against its code.

The cache collection, cache adapter and rate-limited request dispatcher are
declared in src/typings/index.d.ts (BaseCacheOptions, BaseCacheSweeper,
CacheAdapter, RequestHandlerOptions) but their implementations are not part
of the source tree here, so those components are modelled from the
specification text (sections 3, 4.3, 4.4, 6 and 7 of spec.md).  The
interaction factory, the replyable-interaction acknowledge protocol, the
message reaction hydration and Message.reply are embedded directly from
resources/Interaction.ts and resources/Message.ts.
-/

namespace Darkcord

/-! ## Cache collection (modelled from the spec)

Modelled from the spec: CacheCollection of section 3 / 4.4 of spec.md.  The
implementation (class Cache referenced from src/typings/index.d.ts and
resources/Message.ts) is not part of the source tree; only its option and
sweeper typings are.  Entries are kept as an ordered key-value list, oldest
first, mirroring the insertion-ordered mapping the spec describes. -/
structure CacheCol (α : Type) where
  maxSize : Nat
  entries : List (Nat × α)
deriving DecidableEq

/-- Lookup of a key in a cache collection. -/
def findEntry {α : Type} (c : CacheCol α) (k : Nat) : Option α :=
  (c.entries.find? (fun p => p.1 == k)).map (fun p => p.2)

/-- Modelled from the spec: the insert algorithm of section 4.4 — overwrite
in place when the key exists (insertion order unchanged); otherwise, when the
collection is at maxSize, evict the oldest entry by insertion order before
appending the new one. -/
def setEntry {α : Type} (c : CacheCol α) (k : Nat) (v : α) : CacheCol α :=
  if (c.entries.find? (fun p => p.1 == k)).isSome then
    { c with entries := c.entries.map (fun p => if p.1 == k then (k, v) else p) }
  else if c.maxSize ≤ c.entries.length then
    { c with entries := c.entries.drop 1 ++ [(k, v)] }
  else
    { c with entries := c.entries ++ [(k, v)] }

/-- Modelled from the spec: the sweep algorithm of section 4.4 — remove any
entry for which the filter holds and the keep-filter does not. -/
def sweepEntries {α : Type} (f g : α → Bool) (c : CacheCol α) : CacheCol α :=
  { c with entries := c.entries.filter (fun p => !(f p.2 && !g p.2)) }

/-! ## Cache adapter (modelled from the spec)

Modelled from the spec: the CacheAdapter contract of section 6 of spec.md,
declared in src/typings/index.d.ts lines 367-377; the default map-backed
adapter implementation is not part of the source tree. -/

/-- Adapter get: the value stored at a key, or none. -/
def adapterGet {α : Type} (m : List (Nat × α)) (k : Nat) : Option α :=
  (m.find? (fun p => p.1 == k)).map (fun p => p.2)

/-- Adapter has: whether a key is present. -/
def adapterHas {α : Type} (m : List (Nat × α)) (k : Nat) : Bool :=
  (m.find? (fun p => p.1 == k)).isSome

/-- Adapter delete: the map without the key, and whether anything was
removed. -/
def adapterDelete {α : Type} (m : List (Nat × α)) (k : Nat) :
    List (Nat × α) × Bool :=
  if (m.find? (fun p => p.1 == k)).isSome then
    (m.filter (fun p => !(p.1 == k)), true)
  else
    (m, false)

/-! ## Rate-limited request dispatcher (modelled from the spec)

Modelled from the spec: RequestDispatcher, RateBucket and GlobalLimiter of
sections 3 and 4.3 of spec.md.  The request handler implementation is not
part of the source tree; only RequestHandlerOptions (maxRetry) and the
rate-limit event typings are declared in src/typings/index.d.ts.  Buckets
are identified by Nat keys and kept in association lists so that every
transition is executable.  Events drive one step each: submitting a request
to a bucket queue, dispatching the head of a queue (spec 4.3 step 1-2:
requires no request of the bucket in flight, the global gate open and quota
available, with refill after reset), a success response carrying fresh
quota headers (step 3), a 429 response that either closes the global gate
or delays the bucket (step 4), and a terminal failure of the in-flight
request. -/

/-- Association list lookup by bucket key. -/
def alGet {α : Type} : List (Nat × α) → Nat → Option α
  | [], _ => none
  | (k1, v) :: rest, k => if k1 = k then some v else alGet rest k

/-- Association list update by bucket key. -/
def alSet {α : Type} : List (Nat × α) → Nat → α → List (Nat × α)
  | [], k, v => [(k, v)]
  | (k1, v1) :: rest, k, v =>
      if k1 = k then (k, v) :: rest else (k1, v1) :: alSet rest k v

/-- Association list lookup with a default. -/
def alGetD {α : Type} (m : List (Nat × α)) (k : Nat) (d : α) : α :=
  (alGet m k).getD d

/-- The dispatcher state: current time, the global gate (closed while now is
before globalResetAt), per-bucket FIFO queues, in-flight request, completion
list and submission list, per-bucket quota counters, and a global completion
log across all buckets. -/
structure RLState where
  now : Nat
  globalResetAt : Nat
  queue : List (Nat × List Nat)
  inflight : List (Nat × Option Nat)
  done : List (Nat × List Nat)
  submittedLog : List (Nat × List Nat)
  remaining : List (Nat × Nat)
  limit : List (Nat × Nat)
  resetAt : List (Nat × Nat)
  log : List Nat
deriving DecidableEq

/-- Pending queue of one bucket. -/
def queueOf (s : RLState) (k : Nat) : List Nat := alGetD s.queue k []

/-- In-flight request of one bucket, if any. -/
def inflightOf (s : RLState) (k : Nat) : Option Nat := alGetD s.inflight k none

/-- Requests of one bucket that have finished, in completion order. -/
def doneOf (s : RLState) (k : Nat) : List Nat := alGetD s.done k []

/-- Requests submitted to one bucket, in submission order. -/
def subOf (s : RLState) (k : Nat) : List Nat := alGetD s.submittedLog k []

/-- Remaining quota of one bucket; a bucket is created lazily on first use,
so an unseen bucket may send one request before its headers arrive. -/
def remOf (s : RLState) (k : Nat) : Nat := alGetD s.remaining k 1

/-- Advertised limit of one bucket (1 until the first response headers). -/
def limOf (s : RLState) (k : Nat) : Nat := alGetD s.limit k 1

/-- Reset time of one bucket. -/
def resetOf (s : RLState) (k : Nat) : Nat := alGetD s.resetAt k 0

/-- One observable event of the dispatcher. -/
inductive Ev where
  | tick (d : Nat)
  | submit (k r : Nat)
  | dispatch (k : Nat)
  | completeOk (k lim rem reset : Nat)
  | complete429 (k : Nat) (isGlobalScope : Bool) (retryAfter : Nat)
  | failReq (k : Nat)
deriving DecidableEq

/-- Whether an event is a 429 response carrying the global-scope flag. -/
def Ev.isGlobal429 : Ev → Bool
  | Ev.complete429 _ g _ => g
  | _ => false

/-- Modelled from the spec: one transition of the dispatch loop of section
4.3.  Returns none when the event is not enabled in the given state. -/
def step (s : RLState) (e : Ev) : Option RLState :=
  match e with
  | Ev.tick d => some { s with now := s.now + d }
  | Ev.submit k r =>
      some { s with
        queue := alSet s.queue k (queueOf s k ++ [r]),
        submittedLog := alSet s.submittedLog k (subOf s k ++ [r]) }
  | Ev.dispatch k =>
      match queueOf s k with
      | [] => none
      | r :: rest =>
          match inflightOf s k with
          | some _ => none
          | none =>
              if s.now < s.globalResetAt then none
              else
                let rem := if resetOf s k ≤ s.now then limOf s k else remOf s k
                if rem = 0 then none
                else some { s with
                  queue := alSet s.queue k rest,
                  inflight := alSet s.inflight k (some r),
                  remaining := alSet s.remaining k (rem - 1) }
  | Ev.completeOk k lim rem reset =>
      match inflightOf s k with
      | none => none
      | some r =>
          some { s with
            inflight := alSet s.inflight k none,
            done := alSet s.done k (doneOf s k ++ [r]),
            limit := alSet s.limit k lim,
            remaining := alSet s.remaining k rem,
            resetAt := alSet s.resetAt k reset,
            log := s.log ++ [r] }
  | Ev.complete429 k g retryAfter =>
      match inflightOf s k with
      | none => none
      | some _ =>
          if g then some { s with globalResetAt := s.now + retryAfter }
          else some { s with
            resetAt := alSet s.resetAt k (s.now + retryAfter),
            remaining := alSet s.remaining k 0 }
  | Ev.failReq k =>
      match inflightOf s k with
      | none => none
      | some r =>
          some { s with
            inflight := alSet s.inflight k none,
            done := alSet s.done k (doneOf s k ++ [r]),
            log := s.log ++ [r] }

/-- Run a list of events from a state. -/
def run (s : RLState) : List Ev → Option RLState
  | [] => some s
  | e :: es =>
      match step s e with
      | none => none
      | some s1 => run s1 es

/-- The dispatcher state before any request. -/
def initState : RLState :=
  { now := 0, globalResetAt := 0, queue := [], inflight := [], done := [],
    submittedLog := [], remaining := [], limit := [], resetAt := [], log := [] }

/-! ## Association list lemmas -/

theorem alGet_set_self {α : Type} (m : List (Nat × α)) (k : Nat) (v : α) :
    alGet (alSet m k v) k = some v := by
  induction m with
  | nil => simp [alSet, alGet]
  | cons p rest ih =>
      rcases p with ⟨k1, v1⟩
      by_cases h : k1 = k
      · simp [alSet, alGet, h]
      · simp [alSet, alGet, h, ih]

theorem alGet_set_ne {α : Type} (m : List (Nat × α)) (k k0 : Nat) (v : α)
    (h : k0 ≠ k) : alGet (alSet m k v) k0 = alGet m k0 := by
  have h1 : ¬ k = k0 := fun hh => h (Eq.symm hh)
  induction m with
  | nil => simp [alSet, alGet, h1]
  | cons p rest ih =>
      rcases p with ⟨k1, v1⟩
      by_cases hk : k1 = k
      · subst hk
        simp [alSet, alGet, h1]
      · simp only [alSet, hk, if_false]
        by_cases h2 : k1 = k0
        · simp [alGet, h2]
        · simp [alGet, h2, ih]

theorem alGetD_set_self {α : Type} (m : List (Nat × α)) (k : Nat) (v d : α) :
    alGetD (alSet m k v) k d = v := by
  simp [alGetD, alGet_set_self]

theorem alGetD_set_ne {α : Type} (m : List (Nat × α)) (k k0 : Nat) (v d : α)
    (h : k0 ≠ k) : alGetD (alSet m k v) k0 d = alGetD m k0 d := by
  simp [alGetD, alGet_set_ne m k k0 v h]

/-! ## Global gate lemmas and theorem (C1) -/

/-- Only a global-scope 429 changes the global reset time. -/
theorem step_preserves_globalResetAt (s s1 : RLState) (e : Ev)
    (hg : e.isGlobal429 = false) (h : step s e = some s1) :
    s1.globalResetAt = s.globalResetAt := by
  cases e with
  | tick d =>
      simp only [step] at h
      cases h
      rfl
  | submit k r =>
      simp only [step] at h
      cases h
      rfl
  | dispatch k =>
      simp only [step] at h
      cases hq : queueOf s k with
      | nil => rw [hq] at h; exact absurd h (by simp)
      | cons r rest =>
          rw [hq] at h
          cases hi : inflightOf s k with
          | some r1 => rw [hi] at h; exact absurd h (by simp)
          | none =>
              rw [hi] at h
              by_cases hgate : s.now < s.globalResetAt
              · simp [hgate] at h
              · simp only [hgate, if_false] at h
                by_cases hrem :
                    (if resetOf s k ≤ s.now then limOf s k else remOf s k) = 0
                · simp [hrem] at h
                · simp only [hrem, if_false, Option.some.injEq] at h
                  cases h
                  rfl
  | completeOk k lim rem reset =>
      simp only [step] at h
      cases hi : inflightOf s k with
      | none => rw [hi] at h; exact absurd h (by simp)
      | some r =>
          rw [hi] at h
          cases h
          rfl
  | complete429 k g retryAfter =>
      simp only [Ev.isGlobal429] at hg
      subst hg
      simp only [step] at h
      cases hi : inflightOf s k with
      | none => rw [hi] at h; exact absurd h (by simp)
      | some r =>
          rw [hi] at h
          simp only [Bool.false_eq_true, if_false, Option.some.injEq] at h
          cases h
          rfl
  | failReq k =>
      simp only [step] at h
      cases hi : inflightOf s k with
      | none => rw [hi] at h; exact absurd h (by simp)
      | some r =>
          rw [hi] at h
          cases h
          rfl

/-- A run without global-scope 429s keeps the global reset time. -/
theorem run_preserves_globalResetAt (evs : List Ev) :
    ∀ s s1 : RLState, (∀ e ∈ evs, e.isGlobal429 = false) →
      run s evs = some s1 → s1.globalResetAt = s.globalResetAt := by
  induction evs with
  | nil =>
      intro s s1 _ h
      simp only [run, Option.some.injEq] at h
      rw [← h]
  | cons e es ih =>
      intro s s1 hng h
      simp only [run] at h
      cases hs : step s e with
      | none => rw [hs] at h; exact absurd h (by simp)
      | some s2 =>
          rw [hs] at h
          have h1 := step_preserves_globalResetAt s s2 e
            (hng e (List.mem_cons_self e es)) hs
          have h2 := ih s2 s1 (fun x hx => hng x (List.mem_cons_of_mem e hx)) h
          rw [h2, h1]

/-- A dispatch step only fires while the global gate is open. -/
theorem step_dispatch_gate (s s1 : RLState) (k : Nat)
    (h : step s (Ev.dispatch k) = some s1) : s.globalResetAt ≤ s.now := by
  simp only [step] at h
  cases hq : queueOf s k with
  | nil => rw [hq] at h; exact absurd h (by simp)
  | cons r rest =>
      rw [hq] at h
      cases hi : inflightOf s k with
      | some r1 => rw [hi] at h; exact absurd h (by simp)
      | none =>
          rw [hi] at h
          by_cases hgate : s.now < s.globalResetAt
          · simp [hgate] at h
          · exact Nat.le_of_not_lt hgate

/-- A global-scope 429 closes the gate until now plus the advertised
retry-after duration. -/
theorem step_global429_closes (s s1 : RLState) (k d : Nat)
    (h : step s (Ev.complete429 k true d) = some s1) :
    s1.globalResetAt = s.now + d := by
  simp only [step] at h
  cases hi : inflightOf s k with
  | none => rw [hi] at h; exact absurd h (by simp)
  | some r =>
      rw [hi] at h
      simp only [if_true, Option.some.injEq] at h
      cases h
      rfl

/-- C1: after a 429 response carrying the global-scope flag, as long as no
further global-scope 429 arrives, any bucket that manages to dispatch does
so in a state whose clock has passed the global reset time and whose global
gate it holds: no request of any bucket is dispatched before the global
reset time, whatever its own remaining counter. -/
theorem global_gate_blocks_dispatch (s0 s1 si s2 : RLState) (k kd d : Nat)
    (evs : List Ev)
    (h429 : step s0 (Ev.complete429 k true d) = some s1)
    (hng : ∀ e ∈ evs, e.isGlobal429 = false)
    (hrun : run s1 evs = some si)
    (hdisp : step si (Ev.dispatch kd) = some s2) :
    s0.now + d ≤ si.now ∧ si.globalResetAt ≤ si.now ∧
      si.globalResetAt = s0.now + d := by
  have hgate := step_dispatch_gate si s2 kd hdisp
  have hval : si.globalResetAt = s0.now + d := by
    rw [run_preserves_globalResetAt evs s1 si hng hrun]
    exact step_global429_closes s0 s1 k d h429
  exact ⟨hval ▸ hgate, hgate, hval⟩

/-- A dispatcher state with one request in flight on bucket 0, a pending
request on bucket 1 and positive bucket-1 quota. -/
def gateS0 : RLState :=
  { initState with
    inflight := [(0, some 5)], queue := [(1, [7])],
    submittedLog := [(0, [5]), (1, [7])], remaining := [(1, 3)],
    resetAt := [(1, 100)] }

/-- gateS0 after its in-flight request got a global-scope 429 with a 50
unit retry-after. -/
def gateS1 : RLState := { gateS0 with globalResetAt := 50 }

/-- gateS1 after 60 time units pass. -/
def gateSi : RLState := { gateS1 with now := 60 }

/-- gateSi after bucket 1 dispatches its pending request. -/
def gateS2 : RLState :=
  { gateSi with
    queue := [(1, [])], inflight := [(0, some 5), (1, some 7)],
    remaining := [(1, 2)] }

/-- C1 witness: bucket 1 has quota of its own, yet its dispatch can only
happen once the clock has passed the global reset time set by the 429 on
bucket 0. -/
theorem global_gate_blocks_dispatch_witness :
    gateS0.now + 50 ≤ gateSi.now ∧ gateSi.globalResetAt ≤ gateSi.now ∧
      gateSi.globalResetAt = gateS0.now + 50 :=
  global_gate_blocks_dispatch gateS0 gateS1 gateSi gateS2 0 1 50
    [Ev.tick 60] (by decide) (by decide) (by decide) (by decide)

/-! ## Bucket FIFO lemmas and theorem (C2) -/

/-- Chain invariant of one bucket: finished requests, then the in-flight
request, then the pending queue, spell out the submission list. -/
def BucketChain (s : RLState) : Prop :=
  ∀ k, doneOf s k ++ (inflightOf s k).toList ++ queueOf s k = subOf s k

/-- Every dispatcher transition preserves the chain invariant. -/
theorem step_preserves_chain (s s1 : RLState) (e : Ev)
    (hc : BucketChain s) (h : step s e = some s1) : BucketChain s1 := by
  intro k0
  cases e with
  | tick d =>
      simp only [step, Option.some.injEq] at h
      subst h
      exact hc k0
  | submit k r =>
      simp only [step, Option.some.injEq] at h
      subst h
      by_cases hk : k0 = k
      · subst hk
        have hc0 := hc k0
        simp only [queueOf, doneOf, subOf, inflightOf] at hc0 ⊢
        simp only [alGetD_set_self]
        rw [← hc0]
        simp [List.append_assoc]
      · have hc0 := hc k0
        simp only [queueOf, doneOf, subOf, inflightOf] at hc0 ⊢
        rw [alGetD_set_ne _ _ _ _ _ hk, alGetD_set_ne _ _ _ _ _ hk]
        exact hc0
  | dispatch k =>
      simp only [step] at h
      cases hq : queueOf s k with
      | nil => rw [hq] at h; exact absurd h (by simp)
      | cons r rest =>
          rw [hq] at h
          cases hi : inflightOf s k with
          | some r1 => rw [hi] at h; exact absurd h (by simp)
          | none =>
              rw [hi] at h
              by_cases hgate : s.now < s.globalResetAt
              · simp [hgate] at h
              · simp only [hgate, if_false] at h
                by_cases hrem :
                    (if resetOf s k ≤ s.now then limOf s k else remOf s k) = 0
                · simp [hrem] at h
                · simp only [hrem, if_false, Option.some.injEq] at h
                  subst h
                  by_cases hk : k0 = k
                  · subst hk
                    have hc0 := hc k0
                    rw [hq, hi] at hc0
                    simp only [Option.toList_none, List.nil_append,
                      List.append_nil] at hc0
                    simp only [queueOf, doneOf, subOf, inflightOf] at hc0 ⊢
                    simp only [alGetD_set_self]
                    rw [← hc0]
                    simp
                  · have hc0 := hc k0
                    simp only [queueOf, doneOf, subOf, inflightOf] at hc0 ⊢
                    rw [alGetD_set_ne _ _ _ _ _ hk, alGetD_set_ne _ _ _ _ _ hk]
                    exact hc0
  | completeOk k lim rem reset =>
      simp only [step] at h
      cases hi : inflightOf s k with
      | none => rw [hi] at h; exact absurd h (by simp)
      | some r =>
          rw [hi] at h
          simp only [Option.some.injEq] at h
          subst h
          by_cases hk : k0 = k
          · subst hk
            have hc0 := hc k0
            rw [hi] at hc0
            simp only [queueOf, doneOf, subOf, inflightOf] at hc0 ⊢
            simp only [alGetD_set_self]
            rw [← hc0]
            simp [List.append_assoc]
          · have hc0 := hc k0
            simp only [queueOf, doneOf, subOf, inflightOf] at hc0 ⊢
            rw [alGetD_set_ne _ _ _ _ _ hk, alGetD_set_ne _ _ _ _ _ hk]
            exact hc0
  | complete429 k g retryAfter =>
      simp only [step] at h
      cases hi : inflightOf s k with
      | none => rw [hi] at h; exact absurd h (by simp)
      | some r =>
          rw [hi] at h
          cases g with
          | true =>
              simp only [if_true, Option.some.injEq] at h
              subst h
              exact hc k0
          | false =>
              simp only [Bool.false_eq_true, if_false,
                Option.some.injEq] at h
              subst h
              have hc0 := hc k0
              simp only [queueOf, doneOf, subOf, inflightOf] at hc0 ⊢
              exact hc0
  | failReq k =>
      simp only [step] at h
      cases hi : inflightOf s k with
      | none => rw [hi] at h; exact absurd h (by simp)
      | some r =>
          rw [hi] at h
          simp only [Option.some.injEq] at h
          subst h
          by_cases hk : k0 = k
          · subst hk
            have hc0 := hc k0
            rw [hi] at hc0
            simp only [queueOf, doneOf, subOf, inflightOf] at hc0 ⊢
            simp only [alGetD_set_self]
            rw [← hc0]
            simp [List.append_assoc]
          · have hc0 := hc k0
            simp only [queueOf, doneOf, subOf, inflightOf] at hc0 ⊢
            rw [alGetD_set_ne _ _ _ _ _ hk, alGetD_set_ne _ _ _ _ _ hk]
            exact hc0

/-- A run preserves the chain invariant. -/
theorem run_preserves_chain (evs : List Ev) :
    ∀ s s1 : RLState, BucketChain s → run s evs = some s1 →
      BucketChain s1 := by
  induction evs with
  | nil =>
      intro s s1 hc h
      simp only [run, Option.some.injEq] at h
      subst h
      exact hc
  | cons e es ih =>
      intro s s1 hc h
      simp only [run] at h
      cases hs : step s e with
      | none => rw [hs] at h; exact absurd h (by simp)
      | some s2 =>
          rw [hs] at h
          exact ih s2 s1 (step_preserves_chain s s2 e hc hs) h

/-- The empty dispatcher satisfies the chain invariant. -/
theorem initState_chain : BucketChain initState := by
  intro k
  rfl

/-- Trace completing the bucket-0 request before the bucket-1 request. -/
def crossTraceA : List Ev :=
  [Ev.submit 0 10, Ev.submit 1 20, Ev.dispatch 0, Ev.completeOk 0 5 4 100,
   Ev.dispatch 1, Ev.completeOk 1 5 4 100]

/-- Trace completing the bucket-1 request before the bucket-0 request. -/
def crossTraceB : List Ev :=
  [Ev.submit 0 10, Ev.submit 1 20, Ev.dispatch 1, Ev.completeOk 1 5 4 100,
   Ev.dispatch 0, Ev.completeOk 0 5 4 100]

/-- C2: in every reachable dispatcher state the requests of one bucket that
have completed, followed by its in-flight request and its pending queue, are
exactly its submission list in submission order — so completions of one
bucket form a prefix of its submissions, whatever latencies the trace
interleaves — while two requests in different buckets can complete in either
order, as the two concrete valid traces show. -/
theorem bucket_fifo (evs : List Ev) (s1 : RLState)
    (h : run initState evs = some s1) (k : Nat) :
    doneOf s1 k ++ (inflightOf s1 k).toList ++ queueOf s1 k = subOf s1 k ∧
      (run initState crossTraceA).map (fun s => s.log) = some [10, 20] ∧
      (run initState crossTraceB).map (fun s => s.log) = some [20, 10] :=
  ⟨run_preserves_chain evs initState s1 initState_chain h k,
    by decide, by decide⟩

/-- The dispatcher state reached by running crossTraceA. -/
def fifoFinal : RLState :=
  { now := 0, globalResetAt := 0,
    queue := [(0, []), (1, [])],
    inflight := [(0, none), (1, none)],
    done := [(0, [10]), (1, [20])],
    submittedLog := [(0, [10]), (1, [20])],
    remaining := [(0, 4), (1, 4)],
    limit := [(0, 5), (1, 5)],
    resetAt := [(0, 100), (1, 100)],
    log := [10, 20] }

/-- C2 witness: the chain equation evaluated in the state reached by the
concrete two-bucket trace. -/
theorem bucket_fifo_witness :
    doneOf fifoFinal 0 ++ (inflightOf fifoFinal 0).toList ++
        queueOf fifoFinal 0 = subOf fifoFinal 0 ∧
      (run initState crossTraceA).map (fun s => s.log) = some [10, 20] ∧
      (run initState crossTraceB).map (fun s => s.log) = some [20, 10] :=
  bucket_fifo crossTraceA fifoFinal (by decide) 0

/-! ## Retry exhaustion (C3)

Modelled from the spec: steps 2-6 of the dispatch loop of section 4.3 and
the error taxonomy of section 7, with maxRetry from RequestHandlerOptions
(src/typings/index.d.ts lines 72-76).  The response to the n-th attempt of
one request is given by an oracle; a 429 or 5xx response is retried until
the retry counter exceeds maxRetry, a non-retryable 4xx fails immediately
with an APIError, and success returns the result. -/

/-- The response one attempt of a request can receive. -/
inductive RResp where
  | ok (v : Nat)
  | quota429
  | server5xx
  | client4xx (code : Nat)
deriving DecidableEq

/-- Whether a response is transient (retried internally). -/
def RResp.isTransient : RResp → Bool
  | RResp.quota429 => true
  | RResp.server5xx => true
  | _ => false

/-- What a dispatcher call ultimately resolves or rejects with. -/
inductive ROutcome where
  | success (v : Nat)
  | retryExhausted
  | apiError (code : Nat)
deriving DecidableEq

/-- Modelled from the spec: the retry loop — attempt number i has
retriesLeft re-attempts left; a transient response with no retries left
fails with RetryExhausted. -/
def attemptRequest (responses : Nat → RResp) : Nat → Nat → ROutcome
  | 0, i =>
      match responses i with
      | RResp.ok v => ROutcome.success v
      | RResp.client4xx code => ROutcome.apiError code
      | RResp.quota429 => ROutcome.retryExhausted
      | RResp.server5xx => ROutcome.retryExhausted
  | n + 1, i =>
      match responses i with
      | RResp.ok v => ROutcome.success v
      | RResp.client4xx code => ROutcome.apiError code
      | RResp.quota429 => attemptRequest responses n (i + 1)
      | RResp.server5xx => attemptRequest responses n (i + 1)

/-- Modelled from the spec: one dispatcher request retried internally up to
maxRetry times. -/
def processRequest (maxRetry : Nat) (responses : Nat → RResp) : ROutcome :=
  attemptRequest responses maxRetry 0

/-- The retry loop with n re-attempts left at attempt i fails with
RetryExhausted when attempts i through i + n all receive transient
responses. -/
theorem attemptRequest_exhausted (responses : Nat → RResp) (n : Nat) :
    ∀ i : Nat, (∀ j : Nat, i ≤ j → j ≤ i + n →
        (responses j).isTransient = true) →
      attemptRequest responses n i = ROutcome.retryExhausted := by
  induction n with
  | zero =>
      intro i h
      have hi := h i (Nat.le_refl i) (Nat.le_add_right i 0)
      cases hr : responses i <;> rw [hr] at hi <;>
        simp [RResp.isTransient] at hi <;> simp [attemptRequest, hr]
  | succ n ih =>
      intro i h
      have hi := h i (Nat.le_refl i) (Nat.le_add_right i (n + 1))
      have hnext : ∀ j : Nat, i + 1 ≤ j → j ≤ i + 1 + n →
          (responses j).isTransient = true := by
        intro j h1 h2
        exact h j (Nat.le_of_succ_le h1) (by omega)
      cases hr : responses i <;> rw [hr] at hi <;>
        simp [RResp.isTransient] at hi <;>
        simp [attemptRequest, hr, ih (i + 1) hnext]

/-- C3: a request that receives a transient response (429 or 5xx/network)
on every attempt up to maxRetry rejects with RetryExhausted rather than
looping — and the loop never consults any attempt past maxRetry, so a
second oracle agreeing on attempts 0..maxRetry (even one that would succeed
afterwards) yields RetryExhausted as well. -/
theorem retry_exhaustion (maxRetry : Nat) (responses responses2 : Nat → RResp)
    (htrans : ∀ n : Nat, n ≤ maxRetry → (responses n).isTransient = true)
    (hagree : ∀ n : Nat, n ≤ maxRetry → responses2 n = responses n) :
    processRequest maxRetry responses = ROutcome.retryExhausted ∧
      processRequest maxRetry responses2 = ROutcome.retryExhausted := by
  constructor
  · exact attemptRequest_exhausted responses maxRetry 0
      (fun j _ h2 => htrans j (by omega))
  · exact attemptRequest_exhausted responses2 maxRetry 0
      (fun j _ h2 => by rw [hagree j (by omega)]; exact htrans j (by omega))

/-- C3 witness: two retries allowed, every attempt rate limited; a variant
oracle that would succeed from attempt 3 on still exhausts, since only
attempts 0..2 are consulted. -/
theorem retry_exhaustion_witness :
    processRequest 2 (fun _ => RResp.quota429) = ROutcome.retryExhausted ∧
      processRequest 2
          (fun n => if n ≤ 2 then RResp.quota429 else RResp.ok 7)
        = ROutcome.retryExhausted :=
  retry_exhaustion 2 (fun _ => RResp.quota429)
    (fun n => if n ≤ 2 then RResp.quota429 else RResp.ok 7)
    (fun _ _ => rfl)
    (fun n hn => by simp [hn])

/-! ## Interaction factory (resources/Interaction.ts, Interaction.from)

Wire interaction payload: the factory in the source switches only on the
type discriminant (InteractionType of discord-api-types: Ping = 1,
ApplicationCommand = 2, MessageComponent = 3,
ApplicationCommandAutocomplete = 4, ModalSubmit = 5); the remaining payload
fields are carried along untouched. -/
structure APIInteractionData where
  interactionType : Nat
  applicationId : Nat
  token : Nat
  version : Nat
deriving DecidableEq

/-- The five shapes the factory can construct. -/
inductive InteractionVariant where
  | base
  | command
  | component
  | autocomplete
  | modalSubmit
deriving DecidableEq

/-- Embedding of Interaction.from: the switch on data.type in
resources/Interaction.ts. -/
def interactionFrom (d : APIInteractionData) : InteractionVariant :=
  if d.interactionType = 2 then InteractionVariant.command
  else if d.interactionType = 3 then InteractionVariant.component
  else if d.interactionType = 4 then InteractionVariant.autocomplete
  else if d.interactionType = 5 then InteractionVariant.modalSubmit
  else InteractionVariant.base

/-! ## Message reaction hydration (resources/Message.ts constructor)

The Message constructor walks data.reactions and stores each one raw when
client.cache._partial(Partials.Reaction) holds, and hydrated into a
Reaction object otherwise; the flag is read from the client configuration,
once per entity type, not per entry. -/
structure APIReactionData where
  emojiId : Nat
  count : Nat
deriving DecidableEq

/-- A cached reaction entry: either the raw wire record or a hydrated
domain object built from it. -/
inductive StoredReaction where
  | raw (r : APIReactionData)
  | hydrated (r : APIReactionData)
deriving DecidableEq

/-- Whether a stored reaction entry is in raw wire form. -/
def StoredReaction.isRaw : StoredReaction → Bool
  | StoredReaction.raw _ => true
  | StoredReaction.hydrated _ => false

/-- Embedding of the reaction loop of the Message constructor
(resources/Message.ts lines 135-143): storeAsRaw is the value of
client.cache._partial(Partials.Reaction) for this client. -/
def messageInitReactions (storeAsRaw : Bool)
    (reactions : List APIReactionData) : List StoredReaction :=
  reactions.map (fun r =>
    if storeAsRaw then StoredReaction.raw r else StoredReaction.hydrated r)

/-! ## Replyable interaction acknowledge protocol (resources/Interaction.ts)

ReplyableInteraction keeps an acknowledged flag, initially false.  defer and
reply throw a MakeError named InteractionAlreadyAcknowledged when the flag
is already set and otherwise perform the response and set the flag;
deleteReply, createFollowUP and getOriginalReply throw a MakeError named
InteractionNoAcknowledged while the flag is still unset.  The rest call is
modelled as succeeding; the isHTTP branch choice picks the transport only
and leaves the flag logic identical, so it is carried as plain state. -/
structure MError where
  name : String
  message : String
deriving DecidableEq

/-- The MakeError payload thrown by defer and reply on a second call. -/
def interactionAlreadyAcknowledged : MError :=
  { name := "InteractionAlreadyAcknowledged",
    message := "You have already acknowledged this interaction." }

/-- The MakeError payload thrown by deleteReply, createFollowUP and
getOriginalReply before any acknowledgement. -/
def interactionNoAcknowledged : MError :=
  { name := "InteractionNoAcknowledged",
    message := "Acknowledge the interaction first" }

/-- The mutable state of a ReplyableInteraction that the acknowledge
protocol reads and writes. -/
structure ReplyableState where
  isHTTP : Bool
  acknowledged : Bool
deriving DecidableEq

/-- Embedding of ReplyableInteraction.defer: error when already
acknowledged, otherwise respond and set the flag. -/
def deferCall (s : ReplyableState) : Option MError × ReplyableState :=
  if s.acknowledged then (some interactionAlreadyAcknowledged, s)
  else (none, { s with acknowledged := true })

/-- Embedding of ReplyableInteraction.reply: error when already
acknowledged, otherwise respond and set the flag. -/
def replyCall (s : ReplyableState) : Option MError × ReplyableState :=
  if s.acknowledged then (some interactionAlreadyAcknowledged, s)
  else (none, { s with acknowledged := true })

/-- Embedding of ReplyableInteraction.deleteReply: error while not yet
acknowledged, otherwise delete the webhook message, flag unchanged. -/
def deleteReplyCall (s : ReplyableState) : Option MError × ReplyableState :=
  if !s.acknowledged then (some interactionNoAcknowledged, s)
  else (none, s)

/-- Embedding of ReplyableInteraction.createFollowUP: error while not yet
acknowledged, otherwise execute the webhook, flag unchanged. -/
def createFollowUPCall (s : ReplyableState) : Option MError × ReplyableState :=
  if !s.acknowledged then (some interactionNoAcknowledged, s)
  else (none, s)

/-- Embedding of ReplyableInteraction.getOriginalReply: error while not yet
acknowledged, otherwise fetch the original webhook message, flag
unchanged. -/
def getOriginalReplyCall (s : ReplyableState) :
    Option MError × ReplyableState :=
  if !s.acknowledged then (some interactionNoAcknowledged, s)
  else (none, s)

/-! ## Message.reply reference overwrite (resources/Message.ts lines 167-182)

reply first fills in a missing message_reference with the message id, then
unconditionally assigns channel_id and message_id from the message being
replied to, clobbering whatever reference the caller supplied. -/
structure MessageReference where
  messageId : Option String
  channelId : Option String
  guildId : Option String
  failIfNotExists : Option Bool
deriving DecidableEq

/-- The slice of MessagePostData that reply manipulates. -/
structure PostData where
  content : Option String
  messageReference : Option MessageReference
deriving DecidableEq

/-- Embedding of the body mutation of Message.reply: mid and chid are the
replied-to message id and channel id. -/
def replyPostData (mid chid : String) (c : PostData) : PostData :=
  let c1 :=
    if c.messageReference.isNone then
      { c with messageReference := some (
          { messageId := some mid, channelId := none, guildId := none,
            failIfNotExists := none }) }
    else c
  match c1.messageReference with
  | some ref =>
      { c1 with messageReference := some (
          { ref with channelId := some chid, messageId := some mid }) }
  | none => c1

/-! ## Cache theorems -/

/-- Helper: an in-place overwrite does not change the number of entries. -/
theorem setEntry_length_overwrite {α : Type} (c : CacheCol α) (k : Nat) (v : α)
    (h : (c.entries.find? (fun p => p.1 == k)).isSome = true) :
    (setEntry c k v).entries.length = c.entries.length := by
  simp [setEntry, h]

/-- C4: after every insert into a collection with positive maxSize whose size
respects the bound, the size still respects the bound; moreover inserting a
4th distinct key into a maxSize-3 collection holding three entries evicts
exactly the oldest-inserted entry, leaving the other three present in order. -/
theorem cache_insert_bound {α : Type} (c : CacheCol α) (k : Nat) (v : α)
    (hpos : 0 < c.maxSize) (hinv : c.entries.length ≤ c.maxSize) :
    (setEntry c k v).entries.length ≤ c.maxSize ∧
      (setEntry (setEntry (setEntry (setEntry
          (⟨3, ([] : List (Nat × Nat))⟩ : CacheCol Nat) 1 10) 2 20) 3 30) 4 40).entries
        = [(2, 20), (3, 30), (4, 40)] := by
  refine ⟨?_, by decide⟩
  cases hfind : (c.entries.find? (fun p => p.1 == k)).isSome with
  | true =>
      rw [setEntry_length_overwrite c k v hfind]
      exact hinv
  | false =>
      by_cases hful : c.maxSize ≤ c.entries.length
      · have hlen : c.entries.length = c.maxSize := Nat.le_antisymm hinv hful
        simp [setEntry, hfind, hful]
        omega
      · simp [setEntry, hfind, hful]
        omega

/-- C4 witness: concrete instantiation of the size bound after an insert. -/
theorem cache_insert_bound_witness :
    (setEntry (⟨3, [(7, 1)]⟩ : CacheCol Nat) 8 2).entries.length ≤ 3 ∧
      (setEntry (setEntry (setEntry (setEntry
          (⟨3, ([] : List (Nat × Nat))⟩ : CacheCol Nat) 1 10) 2 20) 3 30) 4 40).entries
        = [(2, 20), (3, 30), (4, 40)] :=
  cache_insert_bound (⟨3, [(7, 1)]⟩ : CacheCol Nat) 8 2 (by decide) (by decide)

/-- C5: a sweep keeps exactly the entries that do not match the filter or are
protected by the keep-filter, and sweeping a second time with no inserts in
between removes nothing. -/
theorem sweep_removes_matching_and_idempotent {α : Type} (f g : α → Bool)
    (c : CacheCol α) :
    (∀ p : Nat × α, p ∈ (sweepEntries f g c).entries ↔
        p ∈ c.entries ∧ (f p.2 && !g p.2) = false) ∧
      sweepEntries f g (sweepEntries f g c) = sweepEntries f g c := by
  constructor
  · intro p
    simp only [sweepEntries, List.mem_filter]
    cases hf : f p.2 <;> cases hg : g p.2 <;> simp [hf, hg]
  · simp [sweepEntries, List.filter_filter]

/-- C6: adapter operations on an absent key return an absent result rather
than failing — get returns none, delete returns the untouched map with a
false flag (has itself reporting the key absent). -/
theorem adapter_absent_key {α : Type} (m : List (Nat × α)) (k : Nat)
    (h : adapterHas m k = false) :
    adapterGet m k = none ∧ adapterDelete m k = (m, false) := by
  have hfind : m.find? (fun p => p.1 == k) = none := by
    simpa [adapterHas, Option.isSome_iff_exists] using h
  constructor
  · simp [adapterGet, hfind]
  · simp [adapterDelete, hfind]

/-- C6 witness: adapter lookups on a missing key in a concrete map. -/
theorem adapter_absent_key_witness :
    adapterGet [(1, 2), (3, 4)] 0 = none ∧
      adapterDelete [(1, 2), (3, 4)] 0 = ([(1, 2), (3, 4)], false) :=
  adapter_absent_key [(1, 2), (3, 4)] 0 (by decide)

/-! ## Interaction factory theorems -/

/-- C7: the factory variant is a function of the type discriminant alone —
payloads agreeing on the discriminant map to the same variant — with
ApplicationCommand (2), MessageComponent (3),
ApplicationCommandAutocomplete (4) and ModalSubmit (5) mapped to their
variants and every other discriminant mapped to the base Interaction. -/
theorem interaction_factory_by_discriminant (d e : APIInteractionData)
    (hsame : d.interactionType = e.interactionType) (t a b v : Nat)
    (h2 : t ≠ 2) (h3 : t ≠ 3) (h4 : t ≠ 4) (h5 : t ≠ 5) :
    interactionFrom d = interactionFrom e ∧
      interactionFrom ⟨2, a, b, v⟩ = InteractionVariant.command ∧
      interactionFrom ⟨3, a, b, v⟩ = InteractionVariant.component ∧
      interactionFrom ⟨4, a, b, v⟩ = InteractionVariant.autocomplete ∧
      interactionFrom ⟨5, a, b, v⟩ = InteractionVariant.modalSubmit ∧
      interactionFrom ⟨t, a, b, v⟩ = InteractionVariant.base := by
  refine ⟨?_, by simp [interactionFrom], by simp [interactionFrom],
    by simp [interactionFrom], by simp [interactionFrom],
    by simp [interactionFrom, h2, h3, h4, h5]⟩
  simp [interactionFrom, hsame]

/-- C7 witness: two payloads differing everywhere except the discriminant,
and the concrete discriminant table including an unknown type value. -/
theorem interaction_factory_by_discriminant_witness :
    interactionFrom ⟨3, 10, 20, 1⟩ = interactionFrom ⟨3, 99, 98, 97⟩ ∧
      interactionFrom ⟨2, 0, 1, 1⟩ = InteractionVariant.command ∧
      interactionFrom ⟨3, 0, 1, 1⟩ = InteractionVariant.component ∧
      interactionFrom ⟨4, 0, 1, 1⟩ = InteractionVariant.autocomplete ∧
      interactionFrom ⟨5, 0, 1, 1⟩ = InteractionVariant.modalSubmit ∧
      interactionFrom ⟨1, 0, 1, 1⟩ = InteractionVariant.base :=
  interaction_factory_by_discriminant ⟨3, 10, 20, 1⟩ ⟨3, 99, 98, 97⟩ rfl
    1 0 1 1 (by decide) (by decide) (by decide) (by decide)

/-! ## Reaction hydration theorems -/

/-- C8: the reactions stored while constructing a message are all in the
same form, raw exactly when the partial flag for the Reaction type is set;
no entry is dropped or duplicated. -/
theorem message_reactions_uniform_form (storeAsRaw : Bool)
    (reactions : List APIReactionData) :
    (messageInitReactions storeAsRaw reactions).all
        (fun x => x.isRaw == storeAsRaw) = true ∧
      (messageInitReactions storeAsRaw reactions).length = reactions.length := by
  constructor
  · simp only [messageInitReactions, List.all_eq_true]
    intro x hx
    rcases List.mem_map.mp hx with ⟨r, _, hr⟩
    cases storeAsRaw <;> simp [← hr, StoredReaction.isRaw]
  · simp [messageInitReactions]

/-! ## Replyable interaction theorems -/

/-- C9: defer and reply error with InteractionAlreadyAcknowledged exactly
when the flag is already set and always leave the flag set (on a throw the
state is unchanged, on success the flag is raised), so the second of any two
successive reply/defer calls always throws; deleteReply, createFollowUP and
getOriginalReply error with InteractionNoAcknowledged exactly when the flag
is still unset and never change the state. -/
theorem replyable_acknowledge_protocol (s : ReplyableState) :
    (deferCall s).1
        = (if s.acknowledged then some interactionAlreadyAcknowledged
           else none) ∧
      (replyCall s).1
        = (if s.acknowledged then some interactionAlreadyAcknowledged
           else none) ∧
      (deferCall s).2 = { s with acknowledged := true } ∧
      (replyCall s).2 = { s with acknowledged := true } ∧
      (replyCall (replyCall s).2).1 = some interactionAlreadyAcknowledged ∧
      (deferCall (replyCall s).2).1 = some interactionAlreadyAcknowledged ∧
      (replyCall (deferCall s).2).1 = some interactionAlreadyAcknowledged ∧
      (deferCall (deferCall s).2).1 = some interactionAlreadyAcknowledged ∧
      (deleteReplyCall s).1
        = (if s.acknowledged then none else some interactionNoAcknowledged) ∧
      (createFollowUPCall s).1
        = (if s.acknowledged then none else some interactionNoAcknowledged) ∧
      (getOriginalReplyCall s).1
        = (if s.acknowledged then none else some interactionNoAcknowledged) ∧
      (deleteReplyCall s).2 = s ∧
      (createFollowUPCall s).2 = s ∧
      (getOriginalReplyCall s).2 = s := by
  rcases s with ⟨h, a⟩
  cases h <;> cases a <;>
    simp [deferCall, replyCall, deleteReplyCall, createFollowUPCall,
      getOriginalReplyCall]

/-! ## Message.reply theorems -/

/-- C10: whatever post data the caller supplies, the body built by reply
carries a message reference whose message id is the replied-to message and
whose channel id is that message's channel, while the message content is
untouched. -/
theorem reply_overwrites_reference (mid chid : String) (c : PostData) :
    ((replyPostData mid chid c).messageReference.map
        (fun r => r.messageId)) = some (some mid) ∧
      ((replyPostData mid chid c).messageReference.map
        (fun r => r.channelId)) = some (some chid) ∧
      (replyPostData mid chid c).content = c.content := by
  rcases c with ⟨ct, mr⟩
  cases mr <;> simp [replyPostData]

end Darkcord
